import Mathlib

/-!
Verification development for the TaskWeaver task scheduling engine.

The definitions below are a shallow embedding of the TypeScript sources:
`TaskManager` (task store, scheduler, executor), `IdleDetector`
(idle-trigger debounce state machine) and `TaskDecomposer` (decomposition
registry).  Timestamps are modelled as integers in milliseconds (the
value of `Date.getTime()` / `Date.now()`); `Map` iteration order is
modelled as an insertion-ordered list; JavaScript's stable
`Array.prototype.sort` is modelled as a stable insertion sort; a task's
asynchronous action is modelled as a function from the attempt index to
the outcome of that attempt (either the promise resolves with a
`TaskResult`, or it rejects/throws — a timeout in `executeWithTimeout`
surfaces as a rejection and is therefore a `thrown` outcome).
-/

namespace TaskWeaver

/-- The five task priorities of `TaskManager.ts`. -/
inductive TaskPriority where
  | critical
  | high
  | medium
  | low
  | periodic
deriving DecidableEq, Repr

/-- The four task statuses of `TaskManager.ts`. -/
inductive TaskStatus where
  | pending
  | running
  | completed
  | failed
deriving DecidableEq, Repr

/-- A metric value is a number or a string in the source. -/
inductive MetricValue where
  | num (n : Int)
  | str (s : String)
deriving DecidableEq, Repr

/-- Result of one task execution, from `TaskManager.ts`. -/
structure TaskResult where
  success : Bool
  output : Option String := none
  error : Option String := none
  metrics : Option (List (String × MetricValue)) := none
deriving DecidableEq, Repr

/-- A task record, from `TaskManager.ts`.  The `execute` action is kept
outside this structure (it is passed explicitly to the executor) so that
task records stay decidably comparable; all data fields are embedded. -/
structure Task where
  id : String
  name : String
  description : Option String := none
  priority : TaskPriority
  status : TaskStatus
  createdAt : Int := 0
  lastRunAt : Option Int := none
  intervalSeconds : Option Nat := none
  tags : List String := []
  dependsOn : Option (List String) := none
deriving DecidableEq, Repr

/-- Outcome of a single invocation of a task's action under
`executeWithTimeout`: the promise either resolves with a result or
rejects (a thrown error, or the synthesized timeout error). -/
inductive AttemptOutcome where
  | resolved (r : TaskResult)
  | thrown (msg : String)
deriving DecidableEq, Repr

/-- The whole state of a `TaskManager` instance: the task map (as an
insertion-ordered list), the resolved configuration and the running-set
(as an insertion-ordered duplicate-free list). -/
structure TMState where
  tasks : List Task
  maxConcurrent : Nat
  timeoutSeconds : Nat
  maxRetries : Nat
  runningTasks : List String
deriving DecidableEq, Repr

/-- Lookup by id, i.e. `this.tasks.get(taskId)`. -/
def findTask (tasks : List Task) (taskId : String) : Option Task :=
  tasks.find? (fun t => t.id = taskId)

/-- Replace the entry with the given id in place, i.e. the effect on the
map of mutating the stored task object (or `Map.set` on an existing
key, which keeps the original iteration position). -/
def setTask (tasks : List Task) (taskId : String) (t : Task) : List Task :=
  tasks.map (fun u => if u.id = taskId then t else u)

/-- Adding to the running `Set`: a no-op when the id is already present,
otherwise appended at the end. -/
def addRunning (taskId : String) (l : List String) : List String :=
  if taskId ∈ l then l else l ++ [taskId]

/-- Deleting from the running `Set`. -/
def removeRunning (taskId : String) (l : List String) : List String :=
  l.filter (fun x => x ≠ taskId)

/-- The fixed priority rank table of `getPendingTasks`. -/
def priorityOrder : TaskPriority → Nat
  | .critical => 0
  | .high => 1
  | .medium => 2
  | .low => 3
  | .periodic => 4

/-- Dependency check of `getPendingTasks`: when `dependsOn` is present,
every listed id must resolve in the store to a task whose status is
`completed`.  An absent `dependsOn` (and also an empty list, which is
truthy in JavaScript but has nothing to check) passes. -/
def depsSatisfied (tasks : List Task) (t : Task) : Bool :=
  match t.dependsOn with
  | none => true
  | some deps => deps.all fun depId =>
      match findTask tasks depId with
      | none => false
      | some dep => dep.status == TaskStatus.completed

/-- Per-task cooldown check of `getPendingTasks`: a periodic task with a
truthy `intervalSeconds` (present and nonzero) and a present `lastRunAt`
is blocked while `(now - lastRunAt) / 1000 < intervalSeconds`, i.e.
while `now - lastRunAt < intervalSeconds * 1000`. -/
def periodicBlocked (now : Int) (t : Task) : Bool :=
  t.priority == TaskPriority.periodic &&
    (match t.intervalSeconds, t.lastRunAt with
     | some i, some lr => i != 0 && decide (now - lr < (i : Int) * 1000)
     | _, _ => false)

/-- The filter predicate of `getPendingTasks`. -/
def pendingFilter (tasks : List Task) (now : Int) (t : Task) : Bool :=
  t.status == TaskStatus.pending && depsSatisfied tasks t && !periodicBlocked now t

/-- Stable insertion of a task into a rank-sorted list: the inserted
task goes before the first element of greater-or-equal rank (so before
every element of equal rank, matching a stable sort in which the
inserted element originally preceded the list's elements). -/
def insertByRank (a : Task) : List Task → List Task
  | [] => [a]
  | b :: l =>
    if priorityOrder a.priority ≤ priorityOrder b.priority then a :: b :: l
    else b :: insertByRank a l

/-- Stable sort by priority rank, modelling the stable
`Array.prototype.sort` with comparator
`priorityOrder[a.priority] - priorityOrder[b.priority]`. -/
def sortByRank : List Task → List Task
  | [] => []
  | b :: l => insertByRank b (sortByRank l)

/-- The scheduler `getPendingTasks` of `TaskManager.ts`: filter the
insertion-ordered task list down to eligible pending tasks, then
stable-sort by priority rank. -/
def getPendingTasks (s : TMState) (now : Int) : List Task :=
  sortByRank (s.tasks.filter (pendingFilter s.tasks now))

/-- The rank-sortedness predicate for the scheduler's output. -/
def RankSorted (l : List Task) : Prop :=
  l.Pairwise (fun a b => priorityOrder a.priority ≤ priorityOrder b.priority)

/-- Result of the retry loop of `executeTask`: either some attempt's
promise resolved with a `TaskResult`, or every attempt threw and the
loop exhausted its budget carrying the last error message. -/
inductive LoopOutcome where
  | resolved (r : TaskResult)
  | exhausted (lastError : Option String)
deriving DecidableEq, Repr

/-- The `while (retries <= maxRetries)` loop of `executeTask`, run on
fuel `maxRetries + 1`.  `attempts i` is the outcome of the i-th
invocation of the task's action; the returned number counts how many
invocations were performed. -/
def attemptLoop (attempts : Nat → AttemptOutcome) :
    Nat → Nat → Option String → LoopOutcome × Nat
  | _, 0, lastError => (LoopOutcome.exhausted lastError, 0)
  | i, fuel + 1, lastError =>
    match attempts i with
    | .resolved r => (LoopOutcome.resolved r, 1)
    | .thrown m =>
      let rest := attemptLoop attempts (i + 1) fuel (some m)
      (rest.1, rest.2 + 1)

/-- Observable outcome of one `executeTask` / `executeNext` call: the
task-manager state afterwards, the returned value (`none` models the
JavaScript `null`), and how many times the task's action was invoked. -/
structure ExecOutcome where
  state : TMState
  result : Option TaskResult
  attemptCount : Nat
deriving DecidableEq, Repr

/-- The executor `executeTask` of `TaskManager.ts`.  The task is looked
up (unknown id returns `null`); its status is set to `running` and the
id added to the running-set; the retry loop then invokes the action.  A
resolved attempt sets the status from `result.success` (with a periodic
success folding back to `pending`), stamps `lastRunAt`, deregisters and
returns the result.  When every attempt throws, the status becomes
`failed` (without touching `lastRunAt`), the id is deregistered and a
failure result carrying the last error is returned. -/
def executeTask (s : TMState) (taskId : String)
    (attempts : Nat → AttemptOutcome) (now : Int) : ExecOutcome :=
  match findTask s.tasks taskId with
  | none => ⟨s, none, 0⟩
  | some task =>
    let running := { task with status := TaskStatus.running }
    let s1 : TMState :=
      { s with tasks := setTask s.tasks taskId running,
               runningTasks := addRunning taskId s.runningTasks }
    match attemptLoop attempts 0 (s.maxRetries + 1) none with
    | (LoopOutcome.resolved r, k) =>
      let st :=
        if r.success then
          if task.priority = TaskPriority.periodic then TaskStatus.pending
          else TaskStatus.completed
        else TaskStatus.failed
      let done := { running with status := st, lastRunAt := some now }
      ⟨{ s1 with tasks := setTask s1.tasks taskId done,
                 runningTasks := removeRunning taskId s1.runningTasks },
        some r, k⟩
    | (LoopOutcome.exhausted lastError, k) =>
      let done := { running with status := TaskStatus.failed }
      ⟨{ s1 with tasks := setTask s1.tasks taskId done,
                 runningTasks := removeRunning taskId s1.runningTasks },
        some { success := false, error := lastError }, k⟩

/-- The scheduler-facing entry point `executeNext` of `TaskManager.ts`:
a no-op returning `null` when the running-set is at (or beyond) the
`maxConcurrent` capacity or when no task is eligible; otherwise it
executes the first eligible task. -/
def executeNext (s : TMState) (attempts : Nat → AttemptOutcome)
    (now : Int) : ExecOutcome :=
  if s.maxConcurrent ≤ s.runningTasks.length then ⟨s, none, 0⟩
  else
    match getPendingTasks s now with
    | [] => ⟨s, none, 0⟩
    | t :: _ => executeTask s t.id attempts now

/-- Configuration of `IdleDetector.ts` (all durations in seconds). -/
structure IdleDetectorConfig where
  idleThresholdSeconds : Nat
  userSilentThresholdSeconds : Nat
  cooldownSeconds : Nat
deriving DecidableEq, Repr

/-- State of an `IdleDetector` instance: its resolved configuration and
the time of the last trigger, in milliseconds. -/
structure IdleDetector where
  config : IdleDetectorConfig
  lastTriggerTime : Option Int
deriving DecidableEq, Repr

/-- The `Partial<IdleState>` argument of `shouldTrigger`: each field may
be absent. -/
structure IdleStateInput where
  systemIdleSeconds : Option Nat := none
  userSilentSeconds : Option Nat := none
  hasActiveTasks : Option Bool := none
deriving DecidableEq, Repr

/-- The `shouldTrigger` check of `IdleDetector.ts`.  `now` is the
current time in milliseconds; `probeIdle` stands for the value the
system probe `getSystemIdleSeconds()` would return, used only when
`state.systemIdleSeconds` is absent.  The cooldown comparison
`(now - lastTriggerTime) / 1000 < cooldownSeconds` is rendered exactly
as `now - lastTriggerTime < cooldownSeconds * 1000`. -/
def shouldTrigger (d : IdleDetector) (state : IdleStateInput)
    (now : Int) (probeIdle : Nat) : Bool :=
  if (match d.lastTriggerTime with
      | some lt => decide (now - lt < (d.config.cooldownSeconds : Int) * 1000)
      | none => false) then false
  else
    let systemIdle := state.systemIdleSeconds.getD probeIdle
    if systemIdle < d.config.idleThresholdSeconds then false
    else if (match state.userSilentSeconds with
             | some u => decide (u < d.config.userSilentThresholdSeconds)
             | none => false) then false
    else if state.hasActiveTasks.getD false then false
    else true

/-- The `markTriggered` call of `IdleDetector.ts`: record the current
time as the last trigger time. -/
def markTriggered (d : IdleDetector) (now : Int) : IdleDetector :=
  { d with lastTriggerTime := some now }

/-- A decomposition strategy of `TaskDecomposer.ts`. -/
structure DecompositionStrategy where
  name : String
  matchesDesc : String → Bool
  decomposeTask : Task → List Task

/-- The description that `decompose` and `canDecompose` match against:
`task.description || task.name` (an absent description falls back to
the name; the empty string is falsy in JavaScript and also falls back,
but descriptions here are modelled as `Option String` presence). -/
def decompositionDescription (t : Task) : String :=
  t.description.getD t.name

/-- The `dependsOn` initialisation applied to every generated subtask:
an absent `dependsOn` is replaced by an empty list. -/
def initDependsOn (t : Task) : Task :=
  match t.dependsOn with
  | none => { t with dependsOn := some [] }
  | some _ => t

/-- The `decompose` method of `TaskDecomposer.ts`: strategies are tried
in registration order, the first whose predicate matches the task's
description produces the subtasks (each with `dependsOn` initialised);
when no strategy matches, the original task is returned as a singleton
sequence. -/
def decompose : List DecompositionStrategy → Task → List Task
  | [], t => [t]
  | strat :: rest, t =>
    if strat.matchesDesc (decompositionDescription t) then
      (strat.decomposeTask t).map initDependsOn
    else decompose rest t

/-- Demo task `a` (priority low) of the priority-ordering scenario. -/
def demoA : Task :=
  { id := "a", name := "a", priority := TaskPriority.low, status := TaskStatus.pending }

/-- Demo task `b` (priority critical) of the priority-ordering scenario. -/
def demoB : Task :=
  { id := "b", name := "b", priority := TaskPriority.critical, status := TaskStatus.pending }

/-- Demo task `c` (priority high) of the priority-ordering scenario. -/
def demoC : Task :=
  { id := "c", name := "c", priority := TaskPriority.high, status := TaskStatus.pending }

/-- Store holding the three demo tasks in insertion order `a`, `b`, `c`,
under the default configuration. -/
def demoStore : TMState :=
  { tasks := [demoA, demoB, demoC], maxConcurrent := 4, timeoutSeconds := 300,
    maxRetries := 2, runningTasks := [] }

/-- A task with a dependency on an id absent from every store below. -/
def depTask : Task :=
  { id := "w", name := "w", priority := TaskPriority.high, status := TaskStatus.pending,
    dependsOn := some ["missing"] }

/-- Store holding only `depTask`, whose dependency is unmet. -/
def depStore : TMState :=
  { tasks := [depTask], maxConcurrent := 4, timeoutSeconds := 300,
    maxRetries := 2, runningTasks := [] }

/-- A periodic task with a 60 second interval that has never run. -/
def pTask : Task :=
  { id := "p", name := "p", priority := TaskPriority.periodic, status := TaskStatus.pending,
    intervalSeconds := some 60 }

/-- Store holding only `pTask`. -/
def pStore : TMState :=
  { tasks := [pTask], maxConcurrent := 4, timeoutSeconds := 300,
    maxRetries := 2, runningTasks := [] }

/-- The same periodic task after a run stamped at time 0. -/
def pRanTask : Task := { pTask with lastRunAt := some 0 }

/-- Store holding only `pRanTask`. -/
def pRanStore : TMState :=
  { tasks := [pRanTask], maxConcurrent := 4, timeoutSeconds := 300,
    maxRetries := 2, runningTasks := [] }

/-- A plain high-priority pending task used by the executor scenarios. -/
def cTask : Task :=
  { id := "t", name := "t", priority := TaskPriority.high, status := TaskStatus.pending }

/-- Store holding only `cTask`, with `maxRetries = 2`. -/
def cStore : TMState :=
  { tasks := [cTask], maxConcurrent := 4, timeoutSeconds := 300,
    maxRetries := 2, runningTasks := [] }

/-- The action whose every invocation resolves successfully. -/
def okAttempts : Nat → AttemptOutcome :=
  fun _ => AttemptOutcome.resolved { success := true }

/-- The action whose every invocation resolves with `success: false`. -/
def failAttempts : Nat → AttemptOutcome :=
  fun _ => AttemptOutcome.resolved { success := false, error := some "denied" }

/-- The action whose every invocation throws. -/
def throwAll : Nat → AttemptOutcome :=
  fun _ => AttemptOutcome.thrown "boom"

/-- An action that throws on the first invocation and then resolves
with `success: false`. -/
def mixedAttempts : Nat → AttemptOutcome :=
  fun i => match i with
    | 0 => AttemptOutcome.thrown "boom"
    | _ => AttemptOutcome.resolved { success := false, error := some "denied" }

/-- The stored copy of `cTask` while an execution of it is in flight. -/
def runTask : Task := { cTask with status := TaskStatus.running }

/-- A state in which an execution of task `t` is already registered in
the running-set. -/
def runStore : TMState :=
  { tasks := [runTask], maxConcurrent := 4, timeoutSeconds := 300,
    maxRetries := 2, runningTasks := ["t"] }

/-- A state already at its concurrency capacity (`maxConcurrent = 1`
with one unrelated running task). -/
def capStore : TMState :=
  { tasks := [cTask], maxConcurrent := 1, timeoutSeconds := 300,
    maxRetries := 2, runningTasks := ["other"] }

/-- The idle detector of the spec's scenario: thresholds 600 s, cooldown
1800 s, no prior trigger. -/
def idleDemo : IdleDetector :=
  { config := { idleThresholdSeconds := 600, userSilentThresholdSeconds := 600,
                cooldownSeconds := 1800 },
    lastTriggerTime := none }

/-- The idle snapshot of the spec's scenario: 700 s of system idle, no
user-silence reading, no active tasks. -/
def idleInput : IdleStateInput :=
  { systemIdleSeconds := some 700, userSilentSeconds := none, hasActiveTasks := some false }

/-- A registered strategy that matches no description. -/
def noopStrategy : DecompositionStrategy :=
  { name := "noop", matchesDesc := fun _ => false, decomposeTask := fun _ => [] }

theorem mem_insertByRank {x a : Task} {l : List Task} :
    x ∈ insertByRank a l ↔ x = a ∨ x ∈ l := by
  induction l with
  | nil => simp [insertByRank]
  | cons b l ih =>
    by_cases h : priorityOrder a.priority ≤ priorityOrder b.priority
    · simp [insertByRank, h]
    · simp [insertByRank, h, ih]
      tauto

theorem mem_sortByRank {x : Task} {l : List Task} :
    x ∈ sortByRank l ↔ x ∈ l := by
  induction l with
  | nil => simp [sortByRank]
  | cons b l ih => simp [sortByRank, mem_insertByRank, ih]

theorem perm_insertByRank (a : Task) (l : List Task) :
    List.Perm (insertByRank a l) (a :: l) := by
  induction l with
  | nil => simp [insertByRank]
  | cons b l ih =>
    by_cases h : priorityOrder a.priority ≤ priorityOrder b.priority
    · simp [insertByRank, h]
    · simp only [insertByRank, if_neg h]
      exact (ih.cons b).trans (List.Perm.swap a b l)

theorem perm_sortByRank (l : List Task) : List.Perm (sortByRank l) l := by
  induction l with
  | nil => simp [sortByRank]
  | cons b l ih => exact (perm_insertByRank b (sortByRank l)).trans (ih.cons b)

theorem rankSorted_insertByRank {a : Task} {l : List Task}
    (h : RankSorted l) : RankSorted (insertByRank a l) := by
  induction l with
  | nil => simp [insertByRank, RankSorted]
  | cons b l ih =>
    rcases (List.pairwise_cons.mp h) with ⟨hb, hl⟩
    by_cases hab : priorityOrder a.priority ≤ priorityOrder b.priority
    · simp only [RankSorted, insertByRank, if_pos hab]
      refine List.pairwise_cons.mpr ⟨?_, h⟩
      intro y hy
      rcases List.mem_cons.mp hy with rfl | hy
      · exact hab
      · exact le_trans hab (hb y hy)
    · simp only [RankSorted, insertByRank, if_neg hab]
      refine List.pairwise_cons.mpr ⟨?_, ih hl⟩
      intro y hy
      rcases mem_insertByRank.mp hy with rfl | hy
      · omega
      · exact hb y hy

theorem rankSorted_sortByRank (l : List Task) : RankSorted (sortByRank l) := by
  induction l with
  | nil => simp [sortByRank, RankSorted]
  | cons b l ih => exact rankSorted_insertByRank ih

theorem filter_insertByRank (r : Nat) (a : Task) (l : List Task) :
    (insertByRank a l).filter (fun t => priorityOrder t.priority == r) =
      if priorityOrder a.priority == r then
        a :: l.filter (fun t => priorityOrder t.priority == r)
      else l.filter (fun t => priorityOrder t.priority == r) := by
  induction l with
  | nil =>
    by_cases ha : priorityOrder a.priority == r
    · simp [insertByRank, List.filter, ha]
    · simp [insertByRank, List.filter, ha]
  | cons b l ih =>
    by_cases hab : priorityOrder a.priority ≤ priorityOrder b.priority
    · simp only [insertByRank, if_pos hab]
      by_cases ha : priorityOrder a.priority == r
      · simp [List.filter, ha]
      · simp [List.filter, ha]
    · simp only [insertByRank, if_neg hab]
      by_cases ha : priorityOrder a.priority == r
      · have hbr : (priorityOrder b.priority == r) = false := by
          simp only [beq_iff_eq] at ha ⊢
          simp only [Bool.eq_false_iff, ne_eq, beq_iff_eq]
          omega
        simp [List.filter, hbr, ih, ha]
      · by_cases hb : priorityOrder b.priority == r
        · simp [List.filter, hb, ih, ha]
        · simp [List.filter, hb, ih, ha]

theorem filter_sortByRank (r : Nat) (l : List Task) :
    (sortByRank l).filter (fun t => priorityOrder t.priority == r) =
      l.filter (fun t => priorityOrder t.priority == r) := by
  induction l with
  | nil => simp [sortByRank]
  | cons b l ih =>
    simp only [sortByRank, filter_insertByRank, ih]
    by_cases hb : priorityOrder b.priority == r
    · simp [List.filter, hb]
    · simp [List.filter, hb]

theorem findTask_id {tasks : List Task} {taskId : String} {t : Task}
    (h : findTask tasks taskId = some t) : t.id = taskId := by
  have := List.find?_some h
  simpa using this

theorem findTask_setTask {tasks : List Task} {taskId : String} {t u : Task}
    (h : findTask tasks taskId = some t) (hu : u.id = taskId) :
    findTask (setTask tasks taskId u) taskId = some u := by
  induction tasks with
  | nil => simp [findTask] at h
  | cons v rest ih =>
    by_cases hv : v.id = taskId
    · simp [findTask, setTask, List.find?, hv, hu]
    · have h' : findTask rest taskId = some t := by
        simpa [findTask, List.find?, hv] using h
      have := ih h'
      simpa [findTask, setTask, List.find?, hv] using this

theorem attemptLoop_pos (attempts : Nat → AttemptOutcome) (i fuel : Nat)
    (lastError : Option String) :
    1 ≤ (attemptLoop attempts i (fuel + 1) lastError).2 := by
  cases h : attempts i <;> simp [attemptLoop, h]

theorem attemptLoop_thrown_step {attempts : Nat → AttemptOutcome} {i fuel : Nat}
    {lastError : Option String} {m : String}
    (h : attempts i = AttemptOutcome.thrown m) :
    attemptLoop attempts i (fuel + 1) lastError =
      ((attemptLoop attempts (i + 1) fuel (some m)).1,
       (attemptLoop attempts (i + 1) fuel (some m)).2 + 1) := by
  simp [attemptLoop, h]

theorem attemptLoop_first_resolved {attempts : Nat → AttemptOutcome}
    {j : Nat} {r : TaskResult} :
    ∀ i fuel lastError, (∀ k, k < j → ∃ m, attempts (i + k) = AttemptOutcome.thrown m) →
      attempts (i + j) = AttemptOutcome.resolved r → j < fuel →
      attemptLoop attempts i fuel lastError = (LoopOutcome.resolved r, j + 1) := by
  induction j with
  | zero =>
    intro i fuel lastError _ hres hj
    match fuel, hj with
    | fuel + 1, _ => simp [attemptLoop, show attempts i = AttemptOutcome.resolved r by simpa using hres]
  | succ j ih =>
    intro i fuel lastError hth hres hj
    match fuel, hj with
    | fuel + 1, hj =>
      obtain ⟨m, hm⟩ := hth 0 (Nat.succ_pos j)
      have hm0 : attempts i = AttemptOutcome.thrown m := by simpa using hm
      have hth' : ∀ k, k < j → ∃ m, attempts (i + 1 + k) = AttemptOutcome.thrown m := by
        intro k hk
        have := hth (k + 1) (by omega)
        rwa [show i + (k + 1) = i + 1 + k by omega] at this
      have hres' : attempts (i + 1 + j) = AttemptOutcome.resolved r := by
        rwa [show i + (j + 1) = i + 1 + j by omega] at hres
      have := ih (i + 1) fuel (some m) hth' hres' (by omega)
      simp [attemptLoop, hm0, this]

theorem attemptLoop_all_thrown {attempts : Nat → AttemptOutcome} {msgs : Nat → String} :
    ∀ fuel i lastError, (∀ k, k < fuel + 1 → attempts (i + k) = AttemptOutcome.thrown (msgs (i + k))) →
      attemptLoop attempts i (fuel + 1) lastError =
        (LoopOutcome.exhausted (some (msgs (i + fuel))), fuel + 1) := by
  intro fuel
  induction fuel with
  | zero =>
    intro i lastError hth
    have h0 : attempts i = AttemptOutcome.thrown (msgs i) := by simpa using hth 0 (by omega)
    simp [attemptLoop, h0]
  | succ fuel ih =>
    intro i lastError hth
    have h0 : attempts i = AttemptOutcome.thrown (msgs i) := by simpa using hth 0 (by omega)
    have hth' : ∀ k, k < fuel + 1 → attempts (i + 1 + k) = AttemptOutcome.thrown (msgs (i + 1 + k)) := by
      intro k hk
      have := hth (k + 1) (by omega)
      rwa [show i + (k + 1) = i + 1 + k by omega] at this
    have hrec := ih (i + 1) (some (msgs i)) hth'
    rw [attemptLoop_thrown_step h0, hrec,
      show i + 1 + fuel = i + (fuel + 1) by omega]

theorem executeTask_eq_resolved {s : TMState} {taskId : String}
    {attempts : Nat → AttemptOutcome} {now : Int} {task : Task}
    {r : TaskResult} {k : Nat}
    (h : findTask s.tasks taskId = some task)
    (hl : attemptLoop attempts 0 (s.maxRetries + 1) none = (LoopOutcome.resolved r, k)) :
    executeTask s taskId attempts now =
      ⟨{ s with
           tasks := setTask (setTask s.tasks taskId { task with status := TaskStatus.running })
             taskId
             { task with
                 status :=
                   if r.success then
                     if task.priority = TaskPriority.periodic then TaskStatus.pending
                     else TaskStatus.completed
                   else TaskStatus.failed,
                 lastRunAt := some now },
           runningTasks := removeRunning taskId (addRunning taskId s.runningTasks) },
        some r, k⟩ := by
  simp [executeTask, h, hl]

theorem executeTask_eq_exhausted {s : TMState} {taskId : String}
    {attempts : Nat → AttemptOutcome} {now : Int} {task : Task}
    {lastError : Option String} {k : Nat}
    (h : findTask s.tasks taskId = some task)
    (hl : attemptLoop attempts 0 (s.maxRetries + 1) none = (LoopOutcome.exhausted lastError, k)) :
    executeTask s taskId attempts now =
      ⟨{ s with
           tasks := setTask (setTask s.tasks taskId { task with status := TaskStatus.running })
             taskId { task with status := TaskStatus.failed },
           runningTasks := removeRunning taskId (addRunning taskId s.runningTasks) },
        some { success := false, error := lastError }, k⟩ := by
  simp [executeTask, h, hl]

theorem executeTask_findTask_resolved {s : TMState} {taskId : String}
    {attempts : Nat → AttemptOutcome} {now : Int} {task : Task}
    {r : TaskResult} {k : Nat}
    (h : findTask s.tasks taskId = some task)
    (hl : attemptLoop attempts 0 (s.maxRetries + 1) none = (LoopOutcome.resolved r, k)) :
    findTask (executeTask s taskId attempts now).state.tasks taskId =
      some { task with
               status :=
                 if r.success then
                   if task.priority = TaskPriority.periodic then TaskStatus.pending
                   else TaskStatus.completed
                 else TaskStatus.failed,
               lastRunAt := some now } := by
  rw [executeTask_eq_resolved h hl]
  have hid : task.id = taskId := findTask_id h
  exact findTask_setTask (findTask_setTask h (by simpa using hid)) (by simpa using hid)

theorem executeTask_findTask_exhausted {s : TMState} {taskId : String}
    {attempts : Nat → AttemptOutcome} {now : Int} {task : Task}
    {lastError : Option String} {k : Nat}
    (h : findTask s.tasks taskId = some task)
    (hl : attemptLoop attempts 0 (s.maxRetries + 1) none = (LoopOutcome.exhausted lastError, k)) :
    findTask (executeTask s taskId attempts now).state.tasks taskId =
      some { task with status := TaskStatus.failed } := by
  rw [executeTask_eq_exhausted h hl]
  have hid : task.id = taskId := findTask_id h
  exact findTask_setTask (findTask_setTask h (by simpa using hid)) (by simpa using hid)

/-- C1: a task with an unmet dependency — some id listed in its
`dependsOn` either resolves to no task in the store or resolves to a
task whose status is not `completed` — is never included in the result
of `getPendingTasks`, whatever its priority and whatever else the store
holds. -/
theorem claim1_unmet_deps_excluded (s : TMState) (now : Int) (t : Task)
    (deps : List String) (depId : String)
    (hdeps : t.dependsOn = some deps) (hmem : depId ∈ deps)
    (hbad : ∀ dep, findTask s.tasks depId = some dep → dep.status ≠ TaskStatus.completed) :
    t ∉ getPendingTasks s now := by
  intro hin
  have hf := List.mem_filter.mp (mem_sortByRank.mp hin)
  have hp := hf.2
  have hds : depsSatisfied s.tasks t = false := by
    simp only [depsSatisfied, hdeps, List.all_eq_false]
    refine ⟨depId, hmem, ?_⟩
    cases hfind : findTask s.tasks depId with
    | none => simp
    | some dep => simp [hbad dep hfind]
  simp [pendingFilter, hds] at hp

/-- Witness for C1 at a concrete store: the only task depends on the
absent id `missing` and is consequently not scheduled. -/
theorem claim1_unmet_deps_excluded_witness :
    depTask ∉ getPendingTasks depStore 0 :=
  claim1_unmet_deps_excluded depStore 0 depTask ["missing"] "missing" rfl
    (by decide)
    (fun dep hdep => by
      rw [show findTask depStore.tasks "missing" = none from rfl] at hdep
      exact Option.noConfusion hdep)

/-- C2: `getPendingTasks` is a stable sort of the eligible pending
tasks by the fixed priority rank: its output is rank-sorted, is a
permutation of the filtered insertion-ordered task list, and restricted
to any single rank coincides with the filtered list (so ties preserve
insertion order); on the concrete scenario with pending dependency-free
tasks a(low), b(critical), c(high) inserted in that order the result is
exactly [b, c, a]. -/
theorem claim2_priority_stable_sort :
    (∀ s : TMState, ∀ now : Int, RankSorted (getPendingTasks s now)) ∧
    (∀ s : TMState, ∀ now : Int,
      List.Perm (getPendingTasks s now) (s.tasks.filter (pendingFilter s.tasks now))) ∧
    (∀ s : TMState, ∀ now : Int, ∀ rk : Nat,
      (getPendingTasks s now).filter (fun t => priorityOrder t.priority == rk) =
        (s.tasks.filter (pendingFilter s.tasks now)).filter
          (fun t => priorityOrder t.priority == rk)) ∧
    getPendingTasks demoStore 0 = [demoB, demoC, demoA] := by
  refine ⟨?_, ?_, ?_, ?_⟩
  · intro s now
    exact rankSorted_sortByRank _
  · intro s now
    exact perm_sortByRank _
  · intro s now rk
    exact filter_sortByRank rk _
  · decide

/-- C3: lifecycle of a periodic task.  Via the executor, a periodic
task never ends up `completed`; when some attempt resolves successfully
the final status is `pending` and `lastRunAt` is stamped with the
execution time.  In the scheduler, a periodic task with a nonzero
interval and a recorded last run is excluded while
`now - lastRunAt < intervalSeconds` (in milliseconds) and included once
the interval has elapsed (given no other disqualifier), and a periodic
task that never ran is eligible as soon as it is pending with satisfied
dependencies. -/
theorem claim3_periodic_lifecycle :
    (∀ (s : TMState) (taskId : String) (attempts : Nat → AttemptOutcome) (now : Int)
       (task final : Task),
       findTask s.tasks taskId = some task → task.priority = TaskPriority.periodic →
       findTask (executeTask s taskId attempts now).state.tasks taskId = some final →
       final.status ≠ TaskStatus.completed) ∧
    (∀ (s : TMState) (taskId : String) (attempts : Nat → AttemptOutcome) (now : Int)
       (task final : Task) (r : TaskResult),
       findTask s.tasks taskId = some task → task.priority = TaskPriority.periodic →
       findTask (executeTask s taskId attempts now).state.tasks taskId = some final →
       (executeTask s taskId attempts now).result = some r → r.success = true →
       final.status = TaskStatus.pending ∧ final.lastRunAt = some now) ∧
    (∀ (s : TMState) (now : Int) (t : Task) (i : Nat) (lr : Int),
       t.priority = TaskPriority.periodic → t.intervalSeconds = some i → i ≠ 0 →
       t.lastRunAt = some lr → now - lr < (i : Int) * 1000 →
       t ∉ getPendingTasks s now) ∧
    (∀ (s : TMState) (now : Int) (t : Task) (i : Nat) (lr : Int),
       t ∈ s.tasks → t.status = TaskStatus.pending → depsSatisfied s.tasks t = true →
       t.intervalSeconds = some i → t.lastRunAt = some lr → (i : Int) * 1000 ≤ now - lr →
       t ∈ getPendingTasks s now) ∧
    (∀ (s : TMState) (now : Int) (t : Task),
       t ∈ s.tasks → t.status = TaskStatus.pending → depsSatisfied s.tasks t = true →
       t.lastRunAt = none → t ∈ getPendingTasks s now) := by
  refine ⟨?_, ?_, ?_, ?_, ?_⟩
  · intro s taskId attempts now task final h hper hfind
    rcases hl : attemptLoop attempts 0 (s.maxRetries + 1) none with ⟨out, k⟩
    cases out with
    | resolved r =>
      rw [executeTask_findTask_resolved h hl] at hfind
      cases hfind
      by_cases hs : r.success <;> simp [hs, hper]
    | exhausted le =>
      rw [executeTask_findTask_exhausted h hl] at hfind
      cases hfind
      simp
  · intro s taskId attempts now task final r h hper hfind hres hsucc
    rcases hl : attemptLoop attempts 0 (s.maxRetries + 1) none with ⟨out, k⟩
    cases out with
    | resolved r0 =>
      rw [executeTask_findTask_resolved h hl] at hfind
      rw [executeTask_eq_resolved h hl] at hres
      simp only [Option.some.injEq] at hres
      subst hres
      cases hfind
      simp [hsucc, hper]
    | exhausted le =>
      rw [executeTask_eq_exhausted h hl] at hres
      simp only [Option.some.injEq] at hres
      subst hres
      simp at hsucc
  · intro s now t i lr hper hint hiz hlr hlt hin
    have hf := (List.mem_filter.mp (mem_sortByRank.mp hin)).2
    have hb : periodicBlocked now t = true := by
      simp [periodicBlocked, hper, hint, hlr, hiz, hlt]
    simp [pendingFilter, hb] at hf
  · intro s now t i lr hmem hst hds hint hlr hge
    refine mem_sortByRank.mpr (List.mem_filter.mpr ⟨hmem, ?_⟩)
    have hb : periodicBlocked now t = false := by
      have hdec : decide (now - lr < (i : Int) * 1000) = false := by
        simp only [decide_eq_false_iff_not, not_lt]
        omega
      simp [periodicBlocked, hint, hlr, hdec]
    simp [pendingFilter, hst, hds, hb]
  · intro s now t hmem hst hds hlr
    refine mem_sortByRank.mpr (List.mem_filter.mpr ⟨hmem, ?_⟩)
    have hb : periodicBlocked now t = false := by
      cases hint : t.intervalSeconds <;> simp [periodicBlocked, hint, hlr]
    simp [pendingFilter, hst, hds, hb]

/-- Witness for C3: a concrete successful run of the periodic task `p`
at time 5000 leaves it pending with `lastRunAt = 5000`; the same task
having run at time 0 with a 60 s interval is excluded at `now = 1000`
and included at `now = 60000`; the never-run copy is eligible at once. -/
theorem claim3_periodic_lifecycle_witness :
    ({ pTask with status := TaskStatus.pending, lastRunAt := some 5000 } : Task).status ≠
        TaskStatus.completed ∧
    (({ pTask with status := TaskStatus.pending, lastRunAt := some 5000 } : Task).status =
        TaskStatus.pending ∧
      ({ pTask with status := TaskStatus.pending, lastRunAt := some 5000 } : Task).lastRunAt =
        some 5000) ∧
    pRanTask ∉ getPendingTasks pRanStore 1000 ∧
    pRanTask ∈ getPendingTasks pRanStore 60000 ∧
    pTask ∈ getPendingTasks pStore 0 := by
  refine ⟨?_, ?_, ?_, ?_, ?_⟩
  · exact claim3_periodic_lifecycle.1 pStore "p" okAttempts 5000 pTask
      { pTask with status := TaskStatus.pending, lastRunAt := some 5000 }
      (by decide) rfl (by decide)
  · exact claim3_periodic_lifecycle.2.1 pStore "p" okAttempts 5000 pTask
      { pTask with status := TaskStatus.pending, lastRunAt := some 5000 }
      { success := true }
      (by decide) rfl (by decide) (by decide) rfl
  · exact claim3_periodic_lifecycle.2.2.1 pRanStore 1000 pRanTask 60 0
      rfl rfl (by decide) rfl (by decide)
  · exact claim3_periodic_lifecycle.2.2.2.1 pRanStore 60000 pRanTask 60 0
      (by decide) rfl (by decide) rfl rfl (by decide)
  · exact claim3_periodic_lifecycle.2.2.2.2 pStore 0 pTask (by decide) rfl (by decide) rfl

/-- C4: calling `executeNext` while the running-set is exactly at the
`maxConcurrent` capacity is a no-op: it returns `null`, performs no
invocation of any action, and leaves the whole state (task store and
running-set) unchanged. -/
theorem claim4_executeNext_at_capacity_noop (s : TMState)
    (attempts : Nat → AttemptOutcome) (now : Int)
    (h : s.runningTasks.length = s.maxConcurrent) :
    executeNext s attempts now = ⟨s, none, 0⟩ := by
  simp [executeNext, h.ge]

/-- Witness for C4: a store with capacity 1 and one running task. -/
theorem claim4_executeNext_at_capacity_noop_witness :
    executeNext capStore throwAll 0 = ⟨capStore, none, 0⟩ :=
  claim4_executeNext_at_capacity_noop capStore throwAll 0 (by decide)

/-- C5 counterexample: with `maxRetries = 2`, an action whose first
invocation resolves with `success: false` ends the execution right
there — a single invocation, the task marked `failed`, the failed
result returned — instead of counting toward the retry budget and being
retried (which would take three invocations). -/
theorem claim5_counterexample :
    (executeTask cStore "t" failAttempts 1000).attemptCount = 1 ∧
    cStore.maxRetries = 2 ∧
    (executeTask cStore "t" failAttempts 1000).result =
      some { success := false, error := some "denied" } ∧
    findTask (executeTask cStore "t" failAttempts 1000).state.tasks "t" =
      some { cTask with status := TaskStatus.failed, lastRunAt := some 1000 } := by
  decide

/-- C5 (amended): only attempts that throw (or time out, which
surfaces as a thrown error) consume the retry budget, up to
`maxRetries` additional attempts; the first attempt whose promise
resolves ends the execution immediately, and when it resolves with
`success: false` the task is marked `failed` with `lastRunAt` stamped
and that result is returned — the failure is a returned `TaskResult`,
not a propagated fault. -/
theorem claim5_retry_only_on_throw (s : TMState) (taskId : String)
    (attempts : Nat → AttemptOutcome) (now : Int) (task : Task)
    (j : Nat) (msgs : Nat → String) (r : TaskResult)
    (h : findTask s.tasks taskId = some task)
    (hth : ∀ k, k < j → attempts k = AttemptOutcome.thrown (msgs k))
    (hres : attempts j = AttemptOutcome.resolved r)
    (hj : j ≤ s.maxRetries)
    (hfail : r.success = false) :
    (executeTask s taskId attempts now).result = some r ∧
    (executeTask s taskId attempts now).attemptCount = j + 1 ∧
    findTask (executeTask s taskId attempts now).state.tasks taskId =
      some { task with status := TaskStatus.failed, lastRunAt := some now } := by
  have hl : attemptLoop attempts 0 (s.maxRetries + 1) none = (LoopOutcome.resolved r, j + 1) := by
    refine attemptLoop_first_resolved 0 (s.maxRetries + 1) none ?_ (by simpa using hres) (by omega)
    intro k hk
    exact ⟨msgs k, by simpa using hth k hk⟩
  refine ⟨?_, ?_, ?_⟩
  · rw [executeTask_eq_resolved h hl]
  · rw [executeTask_eq_resolved h hl]
  · rw [executeTask_findTask_resolved h hl, hfail]
    simp

/-- Witness for C5 (amended): the action throws once, then resolves
with `success: false`; the thrown attempt is retried, the resolved
failure ends execution after two invocations with the task failed. -/
theorem claim5_retry_only_on_throw_witness :
    (executeTask cStore "t" mixedAttempts 1000).result =
      some { success := false, error := some "denied" } ∧
    (executeTask cStore "t" mixedAttempts 1000).attemptCount = 2 ∧
    findTask (executeTask cStore "t" mixedAttempts 1000).state.tasks "t" =
      some { cTask with status := TaskStatus.failed, lastRunAt := some 1000 } :=
  claim5_retry_only_on_throw cStore "t" mixedAttempts 1000 cTask 1 (fun _ => "boom")
    { success := false, error := some "denied" }
    (by decide)
    (fun k hk => by
      have hk0 : k = 0 := by omega
      subst hk0
      rfl)
    rfl (by decide) rfl

/-- C6 counterexample: with `maxRetries = 2` and an action that throws
on every invocation, the task ends `failed` and the returned result
carries the last error, but `lastRunAt` is NOT stamped — it stays in
its prior state (here: never set), contradicting the claim that the
exhausted-retries path stamps `lastRunAt`. -/
theorem claim6_counterexample :
    findTask (executeTask cStore "t" throwAll 7000).state.tasks "t" =
      some { cTask with status := TaskStatus.failed } ∧
    ({ cTask with status := TaskStatus.failed } : Task).lastRunAt = none ∧
    (executeTask cStore "t" throwAll 7000).result =
      some { success := false, error := some "boom" } ∧
    (executeTask cStore "t" throwAll 7000).attemptCount = 3 := by
  decide

/-- C6 (amended): when every one of the `maxRetries + 1` attempts
throws, `executeTask` marks the task `failed` and returns a result
carrying the error of the last attempt, but leaves `lastRunAt`
unchanged (it is stamped only on the resolved path). -/
theorem claim6_exhausted_keeps_lastRunAt (s : TMState) (taskId : String)
    (attempts : Nat → AttemptOutcome) (now : Int) (task : Task)
    (msgs : Nat → String)
    (h : findTask s.tasks taskId = some task)
    (hth : ∀ k, k ≤ s.maxRetries → attempts k = AttemptOutcome.thrown (msgs k)) :
    (executeTask s taskId attempts now).result =
      some { success := false, error := some (msgs s.maxRetries) } ∧
    (executeTask s taskId attempts now).attemptCount = s.maxRetries + 1 ∧
    findTask (executeTask s taskId attempts now).state.tasks taskId =
      some { task with status := TaskStatus.failed } ∧
    ({ task with status := TaskStatus.failed } : Task).lastRunAt = task.lastRunAt := by
  have hl : attemptLoop attempts 0 (s.maxRetries + 1) none =
      (LoopOutcome.exhausted (some (msgs s.maxRetries)), s.maxRetries + 1) := by
    have := @attemptLoop_all_thrown attempts msgs
      s.maxRetries 0 none (fun k hk => by simpa using hth k (by omega))
    simpa using this
  refine ⟨?_, ?_, ?_, rfl⟩
  · rw [executeTask_eq_exhausted h hl]
  · rw [executeTask_eq_exhausted h hl]
  · exact executeTask_findTask_exhausted h hl

/-- Witness for C6 (amended) on the concrete always-throwing action. -/
theorem claim6_exhausted_keeps_lastRunAt_witness :
    (executeTask cStore "t" throwAll 7000).result =
      some { success := false, error := some "boom" } ∧
    (executeTask cStore "t" throwAll 7000).attemptCount = 3 ∧
    findTask (executeTask cStore "t" throwAll 7000).state.tasks "t" =
      some { cTask with status := TaskStatus.failed } ∧
    ({ cTask with status := TaskStatus.failed } : Task).lastRunAt = cTask.lastRunAt :=
  claim6_exhausted_keeps_lastRunAt cStore "t" throwAll 7000 cTask (fun _ => "boom")
    (by decide) (fun k _ => rfl)

theorem executeTask_attemptCount_pos {s : TMState} {taskId : String}
    {attempts : Nat → AttemptOutcome} {now : Int} {task : Task}
    (h : findTask s.tasks taskId = some task) :
    1 ≤ (executeTask s taskId attempts now).attemptCount := by
  rcases hl : attemptLoop attempts 0 (s.maxRetries + 1) none with ⟨out, k⟩
  have hk : 1 ≤ k := by
    have := attemptLoop_pos attempts 0 s.maxRetries none
    rw [hl] at this
    exact this
  cases out with
  | resolved r => rw [executeTask_eq_resolved h hl]; exact hk
  | exhausted le => rw [executeTask_eq_exhausted h hl]; exact hk

theorem executeTask_result_isSome {s : TMState} {taskId : String}
    {attempts : Nat → AttemptOutcome} {now : Int} {task : Task}
    (h : findTask s.tasks taskId = some task) :
    (executeTask s taskId attempts now).result ≠ none := by
  rcases hl : attemptLoop attempts 0 (s.maxRetries + 1) none with ⟨out, k⟩
  cases out with
  | resolved r => rw [executeTask_eq_resolved h hl]; simp
  | exhausted le => rw [executeTask_eq_exhausted h hl]; simp

/-- C7 counterexample: the task id `t` is already registered in the
running-set, yet `executeTask` for that id still invokes the action
(one invocation here) and returns its result — a second simultaneous
execution of the same id does start, so registration in the running-set
does not enforce at-most-one-concurrent-per-id. -/
theorem claim7_counterexample :
    "t" ∈ runStore.runningTasks ∧
    (executeTask runStore "t" okAttempts 3000).attemptCount = 1 ∧
    (executeTask runStore "t" okAttempts 3000).result = some { success := true } := by
  decide

/-- C7 (amended): the running-set is a `Set`, so registering an id that
is already present leaves the set unchanged (it never holds two entries
for one id); but `executeTask` never checks membership, so a call for
an id already in the running-set still invokes the task's action at
least once and returns a result — at-most-one-concurrent-per-id is not
enforced. -/
theorem claim7_running_set_not_guarded (s : TMState) (taskId : String)
    (attempts : Nat → AttemptOutcome) (now : Int) (task : Task)
    (h : findTask s.tasks taskId = some task)
    (hrun : taskId ∈ s.runningTasks) :
    addRunning taskId s.runningTasks = s.runningTasks ∧
    1 ≤ (executeTask s taskId attempts now).attemptCount ∧
    (executeTask s taskId attempts now).result ≠ none :=
  ⟨by simp [addRunning, hrun], executeTask_attemptCount_pos h, executeTask_result_isSome h⟩

/-- Witness for C7 (amended) at the concrete already-running state. -/
theorem claim7_running_set_not_guarded_witness :
    addRunning "t" runStore.runningTasks = runStore.runningTasks ∧
    1 ≤ (executeTask runStore "t" okAttempts 3000).attemptCount ∧
    (executeTask runStore "t" okAttempts 3000).result ≠ none :=
  claim7_running_set_not_guarded runStore "t" okAttempts 3000 runTask
    (by decide) (by decide)

/-- C8: with `systemIdleSeconds` supplied, `shouldTrigger` returns true
exactly when the cooldown has elapsed since the last `markTriggered`
(or none ever happened), the supplied idle time reaches
`idleThresholdSeconds`, the user-silence reading — when supplied —
reaches `userSilentThresholdSeconds`, and `hasActiveTasks` is not true;
on the concrete scenario (thresholds 600 s, cooldown 1800 s, idle
700 s, no active tasks) the first call triggers, a call 10 s after
`markTriggered` does not, and any call from 1800 s after it on
triggers again. -/
theorem shouldTrigger_iff (it ut cd : Nat) (lt : Option Int)
    (v : Nat) (us : Option Nat) (ha : Option Bool) (now : Int) (probeIdle : Nat) :
    shouldTrigger ⟨⟨it, ut, cd⟩, lt⟩ ⟨some v, us, ha⟩ now probeIdle = true ↔
      ((∀ l, lt = some l → (cd : Int) * 1000 ≤ now - l) ∧
       it ≤ v ∧ (∀ u, us = some u → ut ≤ u) ∧ ha ≠ some true) := by
  cases lt with
    | none =>
      cases us with
      | none =>
        cases ha with
        | none =>
          simp only [shouldTrigger, Option.getD_some]
          split_ifs with h1 h2 h3 h4 <;> simp_all <;> omega
        | some b =>
          cases b <;>
            · simp only [shouldTrigger, Option.getD_some]
              split_ifs with h1 h2 h3 h4 <;> simp_all <;> omega
      | some u =>
        cases ha with
        | none =>
          simp only [shouldTrigger, Option.getD_some]
          split_ifs with h1 h2 h3 h4 <;> simp_all <;> omega
        | some b =>
          cases b <;>
            · simp only [shouldTrigger, Option.getD_some]
              split_ifs with h1 h2 h3 h4 <;> simp_all <;> omega
    | some l =>
      cases us with
      | none =>
        cases ha with
        | none =>
          simp only [shouldTrigger, Option.getD_some]
          split_ifs with h1 h2 h3 h4 <;> simp_all <;> omega
        | some b =>
          cases b <;>
            · simp only [shouldTrigger, Option.getD_some]
              split_ifs with h1 h2 h3 h4 <;> simp_all <;> omega
      | some u =>
        cases ha with
        | none =>
          simp only [shouldTrigger, Option.getD_some]
          split_ifs with h1 h2 h3 h4 <;> simp_all <;> omega
        | some b =>
          cases b <;>
            · simp only [shouldTrigger, Option.getD_some]
              split_ifs with h1 h2 h3 h4 <;> simp_all <;> omega

theorem shouldTrigger_demo_first (now : Int) (probeIdle : Nat) :
    shouldTrigger idleDemo idleInput now probeIdle = true := by
  refine (shouldTrigger_iff 600 600 1800 none 700 none (some false) now probeIdle).mpr
    ⟨?_, ?_, ?_, ?_⟩
  · intro l hl
    cases hl
  · omega
  · intro u hu
    cases hu
  · decide

theorem shouldTrigger_demo_cooldown (now : Int) (probeIdle : Nat) :
    shouldTrigger (markTriggered idleDemo now) idleInput (now + 10 * 1000) probeIdle = false := by
  have h := shouldTrigger_iff 600 600 1800 (some now) 700 none (some false)
    (now + 10 * 1000) probeIdle
  rw [Bool.eq_false_iff]
  intro htr
  have hcool := (h.mp htr).1 now rfl
  omega

theorem shouldTrigger_demo_rearmed (now : Int) (probeIdle : Nat) (e : Nat) :
    shouldTrigger (markTriggered idleDemo now) idleInput (now + 1800 * 1000 + e) probeIdle =
      true := by
  refine (shouldTrigger_iff 600 600 1800 (some now) 700 none (some false)
      (now + 1800 * 1000 + e) probeIdle).mpr ⟨?_, ?_, ?_, ?_⟩
  · intro l hl
    cases hl
    push_cast
    omega
  · omega
  · intro u hu
    cases hu
  · decide

/-- C8: with `systemIdleSeconds` supplied, `shouldTrigger` returns true
exactly when the cooldown has elapsed since the last `markTriggered`
(or none ever happened), the supplied idle time reaches
`idleThresholdSeconds`, the user-silence reading — when supplied —
reaches `userSilentThresholdSeconds`, and `hasActiveTasks` is not true;
on the concrete scenario (thresholds 600 s, cooldown 1800 s, idle
700 s, no active tasks) the first call triggers, a call 10 s after
`markTriggered` does not, and any call from 1800 s after it on
triggers again. -/
theorem claim8_shouldTrigger_characterization (it ut cd : Nat) (lt : Option Int)
    (v : Nat) (us : Option Nat) (ha : Option Bool) (now : Int) (probeIdle : Nat) :
    (shouldTrigger ⟨⟨it, ut, cd⟩, lt⟩ ⟨some v, us, ha⟩ now probeIdle = true ↔
      ((∀ l, lt = some l → (cd : Int) * 1000 ≤ now - l) ∧
       it ≤ v ∧ (∀ u, us = some u → ut ≤ u) ∧ ha ≠ some true)) ∧
    shouldTrigger idleDemo idleInput now probeIdle = true ∧
    shouldTrigger (markTriggered idleDemo now) idleInput (now + 10 * 1000) probeIdle = false ∧
    (∀ e : Nat,
      shouldTrigger (markTriggered idleDemo now) idleInput (now + 1800 * 1000 + e) probeIdle =
        true) :=
  ⟨shouldTrigger_iff it ut cd lt v us ha now probeIdle,
   shouldTrigger_demo_first now probeIdle,
   shouldTrigger_demo_cooldown now probeIdle,
   fun e => shouldTrigger_demo_rearmed now probeIdle e⟩

/-- Witness for C8: the first scenario call, fully instantiated. -/
theorem claim8_shouldTrigger_characterization_witness :
    shouldTrigger idleDemo idleInput 0 0 = true :=
  (claim8_shouldTrigger_characterization 600 600 1800 none 700 none (some false) 0 0).2.1

/-- C9: `decompose` on a task whose description (with fallback to its
name) matches no registered strategy returns the singleton sequence
holding the original task unchanged. -/
theorem claim9_decompose_no_match (strategies : List DecompositionStrategy) (t : Task)
    (h : ∀ strat ∈ strategies, strat.matchesDesc (decompositionDescription t) = false) :
    decompose strategies t = [t] := by
  induction strategies with
  | nil => rfl
  | cons strat rest ih =>
    have h0 : strat.matchesDesc (decompositionDescription t) = false :=
      h strat (List.mem_cons_self strat rest)
    simp only [decompose, h0, Bool.false_eq_true, if_false]
    exact ih (fun st hst => h st (List.mem_cons_of_mem strat hst))

/-- Witness for C9: a registry holding one never-matching strategy. -/
theorem claim9_decompose_no_match_witness :
    decompose [noopStrategy] cTask = [cTask] :=
  claim9_decompose_no_match [noopStrategy] cTask
    (fun strat hst => by
      rcases List.mem_singleton.mp hst with rfl
      rfl)

/-- C10: `executeTask` on any stored task id proceeds unconditionally:
the store is updated with the task marked `running`, the action is
invoked at least once and a result (never `null`) is returned — with no
hypothesis on the task's current status or on the running-set size, so
this holds in particular when the running-set is already at
`maxConcurrent`; and registering the id then pushes the running-set
size above `maxConcurrent`, a bound only `executeNext` checks. -/
theorem claim10_executeTask_bypasses_limits (s : TMState) (taskId : String)
    (attempts : Nat → AttemptOutcome) (now : Int) (task : Task)
    (h : findTask s.tasks taskId = some task) :
    findTask (setTask s.tasks taskId { task with status := TaskStatus.running }) taskId =
      some { task with status := TaskStatus.running } ∧
    1 ≤ (executeTask s taskId attempts now).attemptCount ∧
    (executeTask s taskId attempts now).result ≠ none ∧
    (s.runningTasks.length = s.maxConcurrent → taskId ∉ s.runningTasks →
      s.maxConcurrent < (addRunning taskId s.runningTasks).length) := by
  refine ⟨findTask_setTask h (by simpa using findTask_id h),
    executeTask_attemptCount_pos h, executeTask_result_isSome h, ?_⟩
  intro hlen hnot
  simp [addRunning, hnot]
  omega

/-- Witness for C10: the store is at capacity (`maxConcurrent = 1`,
one unrelated running task), yet `executeTask` still runs task `t`. -/
theorem claim10_executeTask_bypasses_limits_witness :
    findTask (setTask capStore.tasks "t" { cTask with status := TaskStatus.running }) "t" =
      some { cTask with status := TaskStatus.running } ∧
    1 ≤ (executeTask capStore "t" okAttempts 0).attemptCount ∧
    (executeTask capStore "t" okAttempts 0).result ≠ none ∧
    capStore.maxConcurrent < (addRunning "t" capStore.runningTasks).length := by
  obtain ⟨h1, h2, h3, h4⟩ :=
    claim10_executeTask_bypasses_limits capStore "t" okAttempts 0 cTask (by decide)
  exact ⟨h1, h2, h3, h4 (by decide) (by decide)⟩

end TaskWeaver
